import Mathlib

/-!
Shallow embedding of `src/youtube.py` (a single-file YouTube downloader).

The file models, directly from the source:
  * `find_ffmpeg_location` (lines 25-57): candidate-directory search for the
    ffmpeg/ffprobe pair, with the PATH probe fallback;
  * `DownloaderWorker.__init__` / `run` (lines 60-125): the task runner, as a
    function from the worker's fields and an environment (filesystem state,
    behaviour of the yt-dlp collaborator) to the ordered trace of externally
    visible actions (directory creation, collaborator invocation, Qt signal
    emissions) together with an optional uncaught exception;
  * `DownloaderWorker._progress_hook` (lines 127-137): the yt-dlp progress
    callback, as a pure function from the hook's data dict to emissions;
  * `MainWindow.start_download` (lines 233-260): the single-in-flight-job
    guard, as a transition on the window's mutable state.

Python machine details are modelled as follows: `str.strip` becomes `pyStrip`
(dropping whitespace from both ends of the character list); dict lookups with
defaults become `Option` fields with `getD`; the float percentage arithmetic
`int(downloaded / total * 100)` of line 133 is modelled at two levels — the
exact-arithmetic abstraction `downloadPct` (floor division
`downloaded * 100 / total`) used where the one-unit float deviation is
immaterial, and the bit-faithful IEEE-binary64 model `pyPct` used where the
emitted value itself is at stake; exceptions become explicit `Option String`
error values threaded through the trace.
-/

/-- A Qt signal emission by `DownloaderWorker` (signals declared at lines
61-64 of the source: `progress_changed`, `log_message`, `finished`, `failed`). -/
inductive Emit where
  | progress (pct : Nat)
  | log (msg : String)
  | finished (title : String)
  | failed (msg : String)
deriving DecidableEq, Repr

/-- The fields of the `data` dict that `_progress_hook` reads (source lines
128-131): `status`, `total_bytes`, `total_bytes_estimate`, `downloaded_bytes`.
Absent keys are `none`; `downloaded_bytes` is read with default `0`. -/
structure HookData where
  status : Option String
  total_bytes : Option Nat
  total_bytes_estimate : Option Nat
  downloaded_bytes : Option Nat
deriving DecidableEq, Repr

/-- Line 130: `total = data.get("total_bytes") or data.get("total_bytes_estimate")`.
Python `or` falls through when the left side is falsy (`None` or `0`). -/
def pickTotal (data : HookData) : Option Nat :=
  match data.total_bytes with
  | some t => if t = 0 then data.total_bytes_estimate else some t
  | none => data.total_bytes_estimate

/-- The percentage of lines 133-134, `int(downloaded / total * 100)` clamped
by `max(0, min(100, pct))`, abstracted in exact arithmetic as floor division
on naturals. The bit-faithful IEEE evaluation is `pyPct` below; the two can
differ by one (28 versus 29 at 29 of 100 bytes). -/
def downloadPct (downloaded total : Nat) : Nat :=
  max 0 (min 100 (downloaded * 100 / total))

/-- `DownloaderWorker._progress_hook` (source lines 127-137) as a pure function
from the hook data to the list of signal emissions it performs, in order.
Line 132 `if total:` is true exactly when `pickTotal` yields a nonzero value. -/
def progressHook (data : HookData) : List Emit :=
  if data.status = some "downloading" then
    match pickTotal data with
    | some t =>
      if t = 0 then []
      else [Emit.progress (downloadPct (data.downloaded_bytes.getD 0) t)]
    | none => []
  else if data.status = some "finished" then
    [Emit.progress 95, Emit.log "Файл скачан, выполняю постобработку..."]
  else []

/-- A positive IEEE-binary64 value in the normal range, as significand and
exponent: the value is `m * 2 ^ (e - 52)` with `2 ^ 52 ≤ m ≤ 2 ^ 53`. Models
line 133's float computation `int(downloaded / total * 100)` bit-exactly. -/
structure F64 where
  m : Nat
  e : Int
deriving DecidableEq, Repr

/-- Round `n / d` to the nearest integer, ties to even (the IEEE default
rounding direction). -/
def rne (n d : Nat) : Nat :=
  let q := n / d
  let r := n % d
  if 2 * r < d then q
  else if d < 2 * r then q + 1
  else if q % 2 = 0 then q else q + 1

/-- Smallest `k` (up to the fuel bound) with `q ≤ p * 2 ^ k`. -/
def smallestShift (p q : Nat) : Nat → Nat
  | 0 => 0
  | fuel + 1 => if q ≤ p then 0 else smallestShift (2 * p) q fuel + 1

/-- Floor base-2 logarithm by structural recursion on a fuel bound (so that it
reduces in the kernel), agreeing with `Nat.log2` whenever `n < 2 ^ fuel`. -/
def natLog2 (n : Nat) : Nat → Nat
  | 0 => 0
  | fuel + 1 => if 2 ≤ n then natLog2 (n / 2) fuel + 1 else 0

/-- The binade exponent `E` of the positive rational `p / q`, characterised by
`2 ^ E ≤ p / q < 2 ^ (E + 1)`. -/
def ratExp (p q : Nat) : Int :=
  if q ≤ p then Int.ofNat (natLog2 (p / q) 1100)
  else -Int.ofNat (smallestShift p q 1100)

/-- Round the positive rational `p / q` to a binary64 value (53-bit
significand, round to nearest, ties to even). -/
def roundRat (p q : Nat) : F64 :=
  let E := ratExp p q
  let s : Int := 52 - E
  let m0 := if 0 ≤ s then rne (p * 2 ^ s.toNat) q else rne p (q * 2 ^ (-s).toNat)
  if m0 = 2 ^ 53 then ⟨2 ^ 52, E + 1⟩ else ⟨m0, E⟩

/-- Binary64 multiplication of a value by the exact constant 100, re-rounding
the product to a 53-bit significand. -/
def times100 (x : F64) : F64 :=
  let M := x.m * 100
  let s := natLog2 M 1100
  if s ≤ 52 then ⟨M, x.e⟩
  else
    let shift := s - 52
    let m0 := rne M (2 ^ shift)
    if m0 = 2 ^ 53 then ⟨2 ^ 52, x.e + shift + 1⟩ else ⟨m0, x.e + shift⟩

/-- Truncation toward zero of a positive binary64 value (Python `int(...)` on
a nonnegative float). -/
def F64.trunc (x : F64) : Nat :=
  let s : Int := x.e - 52
  if 0 ≤ s then x.m * 2 ^ s.toNat else x.m / 2 ^ (-s).toNat

/-- Line 133 evaluated bit-exactly as CPython does in IEEE binary64:
`int(downloaded / total * 100)` for byte counts below `2 ^ 53` (where the
ints convert to doubles exactly) — round `downloaded / total` to a double,
multiply by 100 with re-rounding, truncate toward zero. The model agrees with
CPython's floats on all pairs with `total ≤ 400, downloaded ≤ 2 * total` and
on 200000 random pairs up to `2 ^ 50`. -/
def pyPct (downloaded total : Nat) : Nat :=
  if downloaded = 0 ∨ total = 0 then 0
  else (times100 (roundRat downloaded total)).trunc

/-- `DownloaderWorker._progress_hook` (source lines 127-137) with line 133's
percentage evaluated in the binary64 model `pyPct`: the bit-faithful
refinement of `progressHook`, which abstracts the same computation by exact
floor division. -/
def progressHookFloat (data : HookData) : List Emit :=
  if data.status = some "downloading" then
    match pickTotal data with
    | some t =>
      if t = 0 then []
      else [Emit.progress (max 0 (min 100 (pyPct (data.downloaded_bytes.getD 0) t)))]
    | none => []
  else if data.status = some "finished" then
    [Emit.progress 95, Emit.log "Файл скачан, выполняю постобработку..."]
  else []

/-- Python `str.strip()` on the character list: drop whitespace from the front,
then from the back. -/
def pyStripList (l : List Char) : List Char :=
  ((l.dropWhile Char.isWhitespace).reverse.dropWhile Char.isWhitespace).reverse

/-- Python `str.strip()` (used at source lines 68 and 238-239). -/
def pyStrip (s : String) : String :=
  String.mk (pyStripList s.data)

/-- The fields of `DownloaderWorker` set by `__init__` (source lines 66-71).
`output_dir` is kept as the path's string; `ffmpeg_location` is the optional
override directory. -/
structure DownloaderWorker where
  url : String
  output_dir : String
  mode : String
  ffmpeg_location : Option String
deriving DecidableEq, Repr

/-- `DownloaderWorker.__init__` (source lines 66-71): stores `url.strip()` and
the remaining arguments unchanged. -/
def DownloaderWorker.init (url output_dir mode : String)
    (ffmpeg_location : Option String) : DownloaderWorker :=
  { url := pyStrip url, output_dir := output_dir, mode := mode,
    ffmpeg_location := ffmpeg_location }

/-- Result of `pathlib.Path.mkdir(parents=…, exist_ok=…)` against an abstract
filesystem state: an OS-level error (`osError`, e.g. permissions) may occur
regardless of flags; otherwise a `FileExistsError` is raised exactly when the
directory exists and `exist_ok` is false, and a `FileNotFoundError` exactly
when the parent is missing and `parents` is false. `none` means success. -/
def pathlibMkdir (osError : Option String) (dirExists parentExists : Bool)
    (parents exist_ok : Bool) : Option String :=
  match osError with
  | some e => some e
  | none =>
    if dirExists then
      if exist_ok then none else some "FileExistsError"
    else
      if parentExists || parents then none else some "FileNotFoundError"

/-- Environment of one execution of `DownloaderWorker.run`: the filesystem
state seen by the `mkdir` call at line 78, and the behaviour of the yt-dlp
collaborator at line 117-119 — the progress-hook invocations it performs, then
either an exception (`extractError = some e`) or a result whose optional
`"title"` entry is `infoTitle`. -/
structure RunEnv where
  osError : Option String
  dirExists : Bool
  parentExists : Bool
  hookCalls : List HookData
  extractError : Option String
  infoTitle : Option String
deriving DecidableEq, Repr

/-- An externally visible action performed by `DownloaderWorker.run`, in
program order: the `mkdir(parents, exist_ok)` call (line 78), the invocation of
`YoutubeDL.extract_info` on the worker's url (line 118), or a signal emission. -/
inductive RunAction where
  | mkdirCall (parents exist_ok : Bool)
  | invoke (url : String)
  | emit (e : Emit)
deriving DecidableEq, Repr

/-- `DownloaderWorker.run` (source lines 73-125) as a function from the worker
and the run environment to the ordered trace of actions, paired with the
message of an exception escaping `run` uncaught (`none` when `run` returns
normally). The `mkdir` at line 78 sits outside the `try` at line 115, so an
error there escapes; every collaborator exception is caught at line 124 and
turned into a `failed` emission. -/
def DownloaderWorker.run (w : DownloaderWorker) (env : RunEnv) :
    List RunAction × Option String :=
  if w.url = "" then
    ([RunAction.emit (Emit.failed "Вставьте ссылку на видео.")], none)
  else
    match pathlibMkdir env.osError env.dirExists env.parentExists true true with
    | some e => ([RunAction.mkdirCall true true], some e)
    | none =>
      let flocEmits : List RunAction :=
        match w.ffmpeg_location with
        | some loc => [RunAction.emit (Emit.log ("ffmpeg: " ++ loc))]
        | none => []
      let hookEmits : List RunAction :=
        (env.hookCalls.map (fun d => (progressHook d).map RunAction.emit)).flatten
      let tryTrace : List RunAction :=
        RunAction.emit (Emit.log "Начинаю загрузку...") :: RunAction.invoke w.url :: hookEmits
      match env.extractError with
      | some e =>
        ([RunAction.mkdirCall true true] ++ flocEmits ++ tryTrace ++
          [RunAction.emit (Emit.failed ("Ошибка загрузки: " ++ e))], none)
      | none =>
        ([RunAction.mkdirCall true true] ++ flocEmits ++ tryTrace ++
          [RunAction.emit (Emit.progress 100),
           RunAction.emit (Emit.log "Загрузка завершена."),
           RunAction.emit (Emit.finished (env.infoTitle.getD "video"))], none)

/-- Whether an action is a terminal outcome signal (`finished` or `failed`). -/
def isTerminal : RunAction → Bool
  | RunAction.emit (Emit.finished _) => true
  | RunAction.emit (Emit.failed _) => true
  | _ => false

/-- Number of terminal outcome signals in a trace. -/
def terminalCount (tr : List RunAction) : Nat :=
  (tr.filter isTerminal).length

/-- The terminal outcome signals of a trace, in order. -/
def terminalEmits (tr : List RunAction) : List Emit :=
  tr.filterMap fun a =>
    match a with
    | RunAction.emit (Emit.finished t) => some (Emit.finished t)
    | RunAction.emit (Emit.failed m) => some (Emit.failed m)
    | _ => none

/-- The percentages carried by `progress_changed` emissions of a trace, in
order. -/
def emittedPercentages (tr : List RunAction) : List Nat :=
  tr.filterMap fun a =>
    match a with
    | RunAction.emit (Emit.progress p) => some p
    | _ => none

/-- Number of collaborator invocations (`extract_info` calls) in a trace. -/
def invokeCount (tr : List RunAction) : Nat :=
  (tr.filter fun a =>
    match a with
    | RunAction.invoke _ => true
    | _ => false).length

/-- Environment of `find_ffmpeg_location` (source lines 25-57): whether the
process runs as a packaged binary (`sys.frozen`), the resolved directory of the
application binary, the optional `sys._MEIPASS` bundled-resources directory,
the current working directory, the set of existing file paths, and whether the
`ffmpeg -version` PATH probe succeeds. -/
structure FfmpegEnv where
  frozen : Bool
  exeDir : String
  meipass : Option String
  cwd : String
  existingFiles : List String
  pathProbeOk : Bool
deriving DecidableEq, Repr

/-- Path join `base / name`, as a string. -/
def joinPath (base name : String) : String :=
  base ++ "/" ++ name

/-- The `candidates` list built at source lines 27-39, in program order:
when frozen, the exe directory and its `bin`, then (when `_MEIPASS` is set) the
bundle directory and its `bin`; always followed by the current working
directory and its `bin`. -/
def ffmpegCandidates (env : FfmpegEnv) : List String :=
  let c : List String := []
  let c : List String :=
    if env.frozen then
      let c := c ++ [env.exeDir, joinPath env.exeDir "bin"]
      match env.meipass with
      | some m => c ++ [m, joinPath m "bin"]
      | none => c
    else c
  let c := c ++ [env.cwd]
  c ++ [joinPath env.cwd "bin"]

/-- The test at source lines 42-44: `base` contains both `ffmpeg.exe` and
`ffprobe.exe`. -/
def hasFfmpegPair (env : FfmpegEnv) (base : String) : Bool :=
  env.existingFiles.contains (joinPath base "ffmpeg.exe") &&
    env.existingFiles.contains (joinPath base "ffprobe.exe")

/-- A step taken by `find_ffmpeg_location`: an existence check of a candidate
directory (lines 41-44), or the subprocess PATH probe `ffmpeg -version`
(lines 48-54). -/
inductive FfmpegStep where
  | checkDir (d : String)
  | probePath
deriving DecidableEq, Repr

/-- The loop at source lines 41-45 followed by the fallback at lines 47-57:
scan the candidates in order, returning the first that holds both executables;
when none matches, run the PATH probe, and return `None` whether the probe
succeeds (line 55) or raises (line 57). -/
def ffmpegSearch (env : FfmpegEnv) : List String → Option String × List FfmpegStep
  | [] => (none, [FfmpegStep.probePath])
  | base :: rest =>
    if hasFfmpegPair env base then (some base, [FfmpegStep.checkDir base])
    else
      let r := ffmpegSearch env rest
      (r.1, FfmpegStep.checkDir base :: r.2)

/-- `find_ffmpeg_location` (source lines 25-57): the returned override
directory (`none` models Python `None`), together with the ordered trace of
directory checks and the possible PATH probe. -/
def find_ffmpeg_location (env : FfmpegEnv) : Option String × List FfmpegStep :=
  ffmpegSearch env (ffmpegCandidates env)

/-- The `MainWindow` state that `start_download` (source lines 233-260) reads
and writes: whether `self.thread` is set and whether it reports running, the
current worker, the progress-bar value, the log lines, and whether the download
button is enabled. -/
structure ShellState where
  threadSome : Bool
  threadRunning : Bool
  worker : Option DownloaderWorker
  progress_bar : Nat
  log_box : List String
  download_enabled : Bool
deriving DecidableEq, Repr

/-- An observable side effect of `start_download`: showing the informational
message box (line 235) or starting the worker thread (line 260). -/
inductive ShellEffect where
  | infoBox (title msg : String)
  | threadStart
deriving DecidableEq, Repr

/-- `MainWindow.start_download` (source lines 233-260): when a thread exists
and is running, show the informational notice and return with the state
untouched (lines 234-236); otherwise strip the url and path inputs, reset the
progress bar and log, disable the button, build a fresh worker and start it. -/
def start_download (st : ShellState) (urlText pathText mode : String)
    (floc : Option String) : ShellState × List ShellEffect :=
  if st.threadSome && st.threadRunning then
    (st, [ShellEffect.infoBox "Загрузка" "Дождитесь завершения текущей загрузки."])
  else
    let url := pyStrip urlText
    let output_dir := pyStrip pathText
    ({ threadSome := true, threadRunning := true,
       worker := some (DownloaderWorker.init url output_dir mode floc),
       progress_bar := 0, log_box := [], download_enabled := false },
     [ShellEffect.threadStart])

/-- With `parents=True` and `exist_ok=True` (the flags used at source line 78),
`mkdir` succeeds whenever no OS-level error occurs: an existing directory or a
missing parent never raises. -/
theorem pathlibMkdir_parents_exist_ok (de pe : Bool) :
    pathlibMkdir none de pe true true = none := by
  cases de <;> cases pe <;> rfl

/-- Every emission of `_progress_hook` is a `progress` or a `log` signal —
never a terminal `finished`/`failed`. -/
theorem progressHook_not_terminal (d : HookData) (e : Emit)
    (h : e ∈ progressHook d) : isTerminal (RunAction.emit e) = false := by
  unfold progressHook at h
  split at h
  · cases hp : pickTotal d with
    | none => rw [hp] at h; simp at h
    | some t =>
      rw [hp] at h
      by_cases ht : t = 0
      · simp [ht] at h
      · simp [ht] at h
        simp [h, isTerminal]
  · split at h
    · rcases List.mem_pair.mp h with h1 | h1 <;> simp [h1, isTerminal]
    · simp at h

/-- The hook-call emissions inside a run trace contain no terminal signal. -/
theorem hookEmits_filter_terminal (hooks : List HookData) :
    ((hooks.map (fun d => (progressHook d).map RunAction.emit)).flatten).filter
      isTerminal = [] := by
  induction hooks with
  | nil => rfl
  | cons d rest ih =>
    rw [List.map_cons, List.flatten_cons, List.filter_append, ih, List.append_nil]
    rw [List.filter_eq_nil_iff]
    intro a ha
    rcases List.mem_map.mp ha with ⟨e, he, rfl⟩
    simp [progressHook_not_terminal d e he]

/-- The hook-call emissions inside a run trace contain no collaborator
invocation. -/
theorem hookEmits_no_invoke (hooks : List HookData) :
    ((hooks.map (fun d => (progressHook d).map RunAction.emit)).flatten).filter
      (fun a => match a with | RunAction.invoke _ => true | _ => false) = [] := by
  rw [List.filter_eq_nil_iff]
  intro a ha
  rcases List.mem_flatten.mp ha with ⟨l, hl, hal⟩
  rcases List.mem_map.mp hl with ⟨d, _, rfl⟩
  rcases List.mem_map.mp hal with ⟨e, _, rfl⟩
  simp

/-- Shared helper: a run whose stored url is the empty string performs exactly
the one Failure emission at source lines 74-76. -/
theorem run_eq_of_url_empty (w : DownloaderWorker) (env : RunEnv) (h : w.url = "") :
    w.run env = ([RunAction.emit (Emit.failed "Вставьте ссылку на видео.")], none) := by
  simp [DownloaderWorker.run, h]

/-- C2: for every Job whose source identifier is empty, `run` performs exactly
one action — emitting the Failure "Вставьте ссылку на видео." — so zero
ProgressEvents are emitted, no directory is created, no collaborator is
invoked, and `run` returns normally. -/
theorem run_empty_url (w : DownloaderWorker) (env : RunEnv) (h : w.url = "") :
    w.run env = ([RunAction.emit (Emit.failed "Вставьте ссылку на видео.")], none) :=
  run_eq_of_url_empty w env h

/-- Witness for `run_empty_url` at a concrete worker and environment. -/
theorem run_empty_url_witness :
    (DownloaderWorker.init "" "downloads" "video" none).run
        ⟨none, false, true, [], none, none⟩ =
      ([RunAction.emit (Emit.failed "Вставьте ссылку на видео.")], none) :=
  run_empty_url _ _ (by decide)

/-- C10: a source identifier consisting only of whitespace characters is
stripped by `__init__` (line 68) to the empty string, so `run` behaves exactly
as with an empty identifier: the same Failure message and zero ProgressEvents. -/
theorem run_whitespace_url (s out mode : String) (floc : Option String)
    (env : RunEnv) (h : ∀ c ∈ s.data, c.isWhitespace) :
    (DownloaderWorker.init s out mode floc).run env =
      ([RunAction.emit (Emit.failed "Вставьте ссылку на видео.")], none) := by
  have h1 : s.data.dropWhile Char.isWhitespace = [] :=
    List.dropWhile_eq_nil_iff.mpr h
  have hstrip : pyStrip s = "" := by
    unfold pyStrip pyStripList
    rw [h1]
    rfl
  exact run_eq_of_url_empty _ env (by simpa [DownloaderWorker.init] using hstrip)

/-- Witness for `run_whitespace_url` on a url of blanks and a tab. -/
theorem run_whitespace_url_witness :
    (DownloaderWorker.init "  \t " "downloads" "audio" (some "C:/ff")).run
        ⟨none, true, true, [], none, none⟩ =
      ([RunAction.emit (Emit.failed "Вставьте ссылку на видео.")], none) :=
  run_whitespace_url "  \t " "downloads" "audio" (some "C:/ff") _ (by decide)

/-- C3 counterexample: line 133 computes the percentage in IEEE binary64,
where `29 / 100 * 100 = 28.999999999999996`, so at downloaded=29, total=100
the hook emits 28 while `clamp(floor(29 / 100 * 100), 0, 100) = 29`: the
claimed equality with the clamped exact floor fails on the program. -/
theorem progressHookFloat_counterexample :
    progressHookFloat ⟨some "downloading", some 100, none, some 29⟩ =
      [Emit.progress 28] ∧
    max 0 (min 100 (29 * 100 / 100)) = 29 ∧
    progressHookFloat ⟨some "downloading", some 100, none, some 29⟩ ≠
      [Emit.progress (max 0 (min 100 (29 * 100 / 100)))] := by
  decide

/-- C3 amended: for every progress callback invocation with status
"downloading", downloaded bytes `d ≥ 0` and known total `t > 0`, the hook
emits exactly one percentage, equal to `max 0 (min 100 (pyPct d t))` — the
clamp of line 133's IEEE-binary64 evaluation of `int(d / t * 100)` — which
can fall one below the exact `clamp(floor(d / t * 100), 0, 100)` (28 versus
29 at d=29, t=100). -/
theorem progressHookFloat_downloading (data : HookData) (t : Nat)
    (h1 : data.status = some "downloading") (h2 : pickTotal data = some t)
    (h3 : 0 < t) :
    progressHookFloat data =
      [Emit.progress (max 0 (min 100 (pyPct (data.downloaded_bytes.getD 0) t)))] := by
  have ht : ¬ t = 0 := Nat.pos_iff_ne_zero.mp h3
  simp [progressHookFloat, h1, h2, ht]

/-- Witness for `progressHookFloat_downloading`: at 29 of 100 bytes the single
emission carries `pyPct 29 100`, which evaluates to 28. -/
theorem progressHookFloat_downloading_witness :
    progressHookFloat ⟨some "downloading", some 100, none, some 29⟩ =
      [Emit.progress (max 0 (min 100 (pyPct 29 100)))] ∧
    pyPct 29 100 = 28 :=
  ⟨progressHookFloat_downloading ⟨some "downloading", some 100, none, some 29⟩ 100
    (by decide) (by decide) (by decide), by decide⟩

/-- C6: a start request issued while the worker thread exists and is running is
rejected with the informational notice and leaves the whole window state —
thread flags, worker and its parameters, progress bar, log — unchanged; in
particular no thread is started. -/
theorem start_download_busy (st : ShellState) (u p m : String) (f : Option String)
    (h1 : st.threadSome = true) (h2 : st.threadRunning = true) :
    start_download st u p m f =
      (st, [ShellEffect.infoBox "Загрузка" "Дождитесь завершения текущей загрузки."]) := by
  simp [start_download, h1, h2]

/-- Witness for `start_download_busy` at a concrete busy window state. -/
theorem start_download_busy_witness :
    start_download
        ⟨true, true, some (DownloaderWorker.init "https://a" "d" "video" none),
          37, ["line"], false⟩
        "https://b" "e" "audio" none =
      (⟨true, true, some (DownloaderWorker.init "https://a" "d" "video" none),
          37, ["line"], false⟩,
        [ShellEffect.infoBox "Загрузка" "Дождитесь завершения текущей загрузки."]) :=
  start_download_busy _ "https://b" "e" "audio" none (by decide) (by decide)

/-- C1 counterexample: the `mkdir` at source line 78 is outside the `try`
beginning at line 115, so when directory creation raises (here a permission
error), the exception escapes `run` and zero terminal outcomes are emitted —
not exactly one. -/
theorem run_mkdir_raise_counterexample :
    terminalCount ((DownloaderWorker.init "https://x" "downloads" "video" none).run
        ⟨some "PermissionError", false, true, [], none, none⟩).1 ≠ 1 ∧
    terminalCount ((DownloaderWorker.init "https://x" "downloads" "video" none).run
        ⟨some "PermissionError", false, true, [], none, none⟩).1 = 0 ∧
    ((DownloaderWorker.init "https://x" "downloads" "video" none).run
        ⟨some "PermissionError", false, true, [], none, none⟩).2 =
      some "PermissionError" := by
  decide

/-- C1 amended: exactly one terminal outcome is emitted on every execution
path on which `run` returns normally (empty url, collaborator exception, or
success); when destination-directory creation itself raises, the exception
escapes `run` and zero outcomes are emitted. -/
theorem run_one_outcome (w : DownloaderWorker) (env : RunEnv) :
    ((w.run env).2 = none → terminalCount (w.run env).1 = 1) ∧
    ((w.run env).2 ≠ none → terminalCount (w.run env).1 = 0) := by
  unfold DownloaderWorker.run
  by_cases hu : w.url = ""
  · simp [hu, terminalCount, isTerminal]
  · simp only [hu, if_false]
    cases hmk : pathlibMkdir env.osError env.dirExists env.parentExists true true with
    | some e => simp [terminalCount, isTerminal]
    | none =>
      cases hex : env.extractError with
      | some e =>
        cases hf : w.ffmpeg_location <;>
          simp [terminalCount, List.filter_append, isTerminal] <;>
          (rw [List.sum_eq_zero]; intro x hx;
           rcases List.mem_map.mp hx with ⟨d, _, rfl⟩;
           simp only [Function.comp];
           rw [List.length_eq_zero, List.filter_eq_nil_iff];
           intro a ha;
           rcases List.mem_map.mp ha with ⟨e1, he1, rfl⟩;
           simp [progressHook_not_terminal d e1 he1])
      | none =>
        cases hf : w.ffmpeg_location <;>
          simp [terminalCount, List.filter_append, isTerminal] <;>
          (rw [List.sum_eq_zero]; intro x hx;
           rcases List.mem_map.mp hx with ⟨d, _, rfl⟩;
           simp only [Function.comp];
           rw [List.length_eq_zero, List.filter_eq_nil_iff];
           intro a ha;
           rcases List.mem_map.mp ha with ⟨e1, he1, rfl⟩;
           simp [progressHook_not_terminal d e1 he1])

/-- Witness for `run_one_outcome`: a successful concrete run emits exactly one
terminal outcome. -/
theorem run_one_outcome_witness :
    terminalCount ((DownloaderWorker.init "https://x" "downloads" "video" none).run
        ⟨none, false, true, [⟨some "downloading", some 100, none, some 40⟩], none,
          some "Song"⟩).1 = 1 :=
  (run_one_outcome (DownloaderWorker.init "https://x" "downloads" "video" none)
      ⟨none, false, true, [⟨some "downloading", some 100, none, some 40⟩], none,
        some "Song"⟩).1 (by decide)

/-- The hook-call emissions inside a run trace contribute no terminal outcome
to `terminalEmits`. -/
theorem hookEmits_terminalEmits (hooks : List HookData) :
    terminalEmits ((hooks.map (fun d => (progressHook d).map RunAction.emit)).flatten)
      = [] := by
  unfold terminalEmits
  rw [List.filterMap_eq_nil_iff]
  intro a ha
  rcases List.mem_flatten.mp ha with ⟨l, hl, hal⟩
  rcases List.mem_map.mp hl with ⟨d, hd, rfl⟩
  rcases List.mem_map.mp hal with ⟨e, he, rfl⟩
  have hnt := progressHook_not_terminal d e he
  cases e <;> simp_all [isTerminal]

/-- C5: when the collaborator raises during a run with a non-empty url and a
non-raising `mkdir`, the trace's terminal signals are exactly one Failure whose
message is the explanatory Russian prefix followed by the underlying error
text, and the collaborator is invoked exactly once (no retry). -/
theorem run_extract_error (w : DownloaderWorker) (env : RunEnv) (e : String)
    (hurl : w.url ≠ "") (hos : env.osError = none)
    (hex : env.extractError = some e) :
    terminalEmits (w.run env).1 = [Emit.failed ("Ошибка загрузки: " ++ e)] ∧
    invokeCount (w.run env).1 = 1 := by
  unfold DownloaderWorker.run
  rw [if_neg hurl, hos, pathlibMkdir_parents_exist_ok, hex]
  constructor
  · simp [terminalEmits, List.filterMap_append]
    cases hf : w.ffmpeg_location <;> simp [terminalEmits] <;>
      (intro a _ e1 he1;
       have hnt := progressHook_not_terminal a e1 he1;
       cases e1 <;> simp_all [isTerminal])
  · simp [invokeCount, List.filter_append]
    cases hf : w.ffmpeg_location <;> simp [invokeCount] <;>
      (rw [List.sum_eq_zero]; intro x hx;
       rcases List.mem_map.mp hx with ⟨d, _, rfl⟩;
       simp only [Function.comp];
       rw [List.length_eq_zero, List.filter_eq_nil_iff];
       intro a ha;
       rcases List.mem_map.mp ha with ⟨e1, he1, rfl⟩;
       simp)

/-- Witness for `run_extract_error`: a network error surfaces as the single
wrapped Failure with one collaborator invocation. -/
theorem run_extract_error_witness :
    terminalEmits ((DownloaderWorker.init "https://x" "downloads" "video" none).run
        ⟨none, true, true, [], some "network unreachable", none⟩).1 =
      [Emit.failed ("Ошибка загрузки: " ++ "network unreachable")] ∧
    invokeCount ((DownloaderWorker.init "https://x" "downloads" "video" none).run
        ⟨none, true, true, [], some "network unreachable", none⟩).1 = 1 :=
  run_extract_error (DownloaderWorker.init "https://x" "downloads" "video" none)
    ⟨none, true, true, [], some "network unreachable", none⟩ "network unreachable"
    (by decide) rfl rfl

/-- C7: for every Job with a non-empty url and no OS-level filesystem error,
the trace starts with the `mkdir(parents=True, exist_ok=True)` call, the
collaborator invocation comes strictly after it, `run` returns normally, and —
since the call passes `parents=True, exist_ok=True` — `mkdir` raises neither
when the directory already exists nor when parent directories are missing. -/
theorem run_mkdir_before_invoke (w : DownloaderWorker) (env : RunEnv)
    (hurl : w.url ≠ "") (hos : env.osError = none) :
    (w.run env).1.head? = some (RunAction.mkdirCall true true) ∧
    RunAction.invoke w.url ∈ (w.run env).1.tail ∧
    (w.run env).2 = none ∧
    (∀ de pe, pathlibMkdir none de pe true true = none) := by
  unfold DownloaderWorker.run
  rw [if_neg hurl, hos, pathlibMkdir_parents_exist_ok]
  refine ⟨?_, ?_, ?_, pathlibMkdir_parents_exist_ok⟩ <;>
    cases hex : env.extractError <;> cases hf : w.ffmpeg_location <;> simp

/-- Witness for `run_mkdir_before_invoke` on a run whose destination directory
already exists. -/
theorem run_mkdir_before_invoke_witness :
    ((DownloaderWorker.init "https://x" "downloads" "video" none).run
        ⟨none, true, true, [], none, some "Song"⟩).1.head? =
      some (RunAction.mkdirCall true true) ∧
    RunAction.invoke (DownloaderWorker.init "https://x" "downloads" "video" none).url ∈
      ((DownloaderWorker.init "https://x" "downloads" "video" none).run
        ⟨none, true, true, [], none, some "Song"⟩).1.tail ∧
    ((DownloaderWorker.init "https://x" "downloads" "video" none).run
        ⟨none, true, true, [], none, some "Song"⟩).2 = none ∧
    (∀ de pe, pathlibMkdir none de pe true true = none) :=
  run_mkdir_before_invoke (DownloaderWorker.init "https://x" "downloads" "video" none)
    ⟨none, true, true, [], none, some "Song"⟩ (by decide) rfl

/-- C8: the "finished" hook status emits exactly the fixed percentage 95
followed by the postprocessing log message; and every successful run ends with
percentage 100, the completion log message, and then the Success signal
carrying the extracted title (default "video"). -/
theorem finished_emits_95_then_100 (w : DownloaderWorker) (env : RunEnv)
    (hurl : w.url ≠ "") (hos : env.osError = none)
    (hex : env.extractError = none) :
    (∀ data : HookData, data.status = some "finished" →
      progressHook data =
        [Emit.progress 95, Emit.log "Файл скачан, выполняю постобработку..."]) ∧
    (∃ pre : List RunAction, (w.run env).1 = pre ++
      [RunAction.emit (Emit.progress 100),
       RunAction.emit (Emit.log "Загрузка завершена."),
       RunAction.emit (Emit.finished (env.infoTitle.getD "video"))]) := by
  constructor
  · intro data hd
    simp [progressHook, hd]
  · unfold DownloaderWorker.run
    rw [if_neg hurl, hos, pathlibMkdir_parents_exist_ok, hex]
    refine ⟨RunAction.mkdirCall true true ::
      ((match w.ffmpeg_location with
        | some loc => [RunAction.emit (Emit.log ("ffmpeg: " ++ loc))]
        | none => []) ++
        RunAction.emit (Emit.log "Начинаю загрузку...") ::
          RunAction.invoke w.url ::
            (List.map (fun d => List.map RunAction.emit (progressHook d))
              env.hookCalls).flatten), ?_⟩
    simp

/-- Witness for `finished_emits_95_then_100` on a concrete successful run. -/
theorem finished_emits_95_then_100_witness :
    (∀ data : HookData, data.status = some "finished" →
      progressHook data =
        [Emit.progress 95, Emit.log "Файл скачан, выполняю постобработку..."]) ∧
    (∃ pre : List RunAction,
      ((DownloaderWorker.init "https://x" "downloads" "audio" none).run
          ⟨none, true, true, [⟨some "finished", none, none, none⟩], none,
            some "Song"⟩).1 = pre ++
        [RunAction.emit (Emit.progress 100),
         RunAction.emit (Emit.log "Загрузка завершена."),
         RunAction.emit (Emit.finished
           ((⟨none, true, true, [⟨some "finished", none, none, none⟩], none,
              some "Song"⟩ : RunEnv).infoTitle.getD "video"))]) :=
  finished_emits_95_then_100 (DownloaderWorker.init "https://x" "downloads" "audio" none)
    ⟨none, true, true, [⟨some "finished", none, none, none⟩], none, some "Song"⟩
    (by decide) rfl rfl

/-- The percentage computation of the hook is monotone in the downloaded byte
count for a fixed total. -/
theorem downloadPct_mono (t d1 d2 : Nat) (h : d1 ≤ d2) :
    downloadPct d1 t ≤ downloadPct d2 t := by
  unfold downloadPct
  have hdiv : d1 * 100 / t ≤ d2 * 100 / t := by gcongr
  exact max_le_max (le_refl 0) (min_le_min (le_refl 100) hdiv)

/-- The clamped percentage never exceeds 100. -/
theorem downloadPct_le_100 (d t : Nat) : downloadPct d t ≤ 100 := by
  unfold downloadPct
  exact max_le (Nat.zero_le _) (Nat.min_le_left _ _)

/-- When every hook call reports status "downloading" with the same nonzero
`total_bytes` value `t`, the hook emissions carry exactly one percentage per
call, computed by `downloadPct`. -/
theorem hookEmits_percentages (t : Nat) (ht : t ≠ 0) (hooks : List HookData)
    (hstat : ∀ d ∈ hooks, d.status = some "downloading" ∧ d.total_bytes = some t) :
    emittedPercentages ((hooks.map (fun d => (progressHook d).map RunAction.emit)).flatten)
      = hooks.map (fun d => downloadPct (d.downloaded_bytes.getD 0) t) := by
  induction hooks with
  | nil => rfl
  | cons d rest ih =>
    obtain ⟨h1, h2⟩ := hstat d (List.mem_cons_self d rest)
    have hp : pickTotal d = some t := by simp [pickTotal, h2, ht]
    have hd : progressHook d =
        [Emit.progress (downloadPct (d.downloaded_bytes.getD 0) t)] := by
      simp [progressHook, h1, hp, ht]
    have hrest := ih (fun d' hd' => hstat d' (List.mem_cons_of_mem d hd'))
    unfold emittedPercentages at hrest ⊢
    rw [List.map_cons, List.flatten_cons, List.filterMap_append, hd, hrest,
      List.map_cons]
    rfl

/-- C4 counterexample: a download that reaches 100 percent (100 of 100 bytes)
followed by the "finished" hook and the successful completion emits the
percentage sequence 100, 95, 100 — which is not monotonic non-decreasing,
since the fixed 95 follows the 100. -/
theorem run_percentages_counterexample :
    emittedPercentages ((DownloaderWorker.init "https://x" "downloads" "video" none).run
        ⟨none, true, true,
          [⟨some "downloading", some 100, none, some 100⟩,
           ⟨some "finished", none, none, none⟩], none, some "Song"⟩).1 =
      [100, 95, 100] ∧
    ¬ List.Chain' (fun a b => a ≤ b)
        (emittedPercentages ((DownloaderWorker.init "https://x" "downloads" "video" none).run
          ⟨none, true, true,
            [⟨some "downloading", some 100, none, some 100⟩,
             ⟨some "finished", none, none, none⟩], none, some "Song"⟩).1) := by
  have h : emittedPercentages ((DownloaderWorker.init "https://x" "downloads" "video" none).run
      ⟨none, true, true,
        [⟨some "downloading", some 100, none, some 100⟩,
         ⟨some "finished", none, none, none⟩], none, some "Song"⟩).1 =
      [100, 95, 100] := by decide
  rw [h]
  refine ⟨rfl, ?_⟩
  intro hchain
  rcases List.chain'_cons.mp hchain with ⟨h1, _⟩
  omega

/-- C4 amended: the percentages emitted for "downloading" callbacks are
monotonic non-decreasing whenever the collaborator reports a fixed nonzero
total and non-decreasing downloaded bytes, and the final 100 preserves the
chain; but the fixed 95 on transfer-complete can undercut an earlier
percentage, so monotonicity holds only for runs without a "finished" hook
call. Formally: in a successful run whose hook calls all carry status
"downloading" with the same nonzero `total_bytes` and non-decreasing
`downloaded_bytes`, the full emitted percentage sequence is a non-decreasing
chain. -/
theorem run_percentages_monotone (w : DownloaderWorker) (env : RunEnv) (t : Nat)
    (hurl : w.url ≠ "") (hos : env.osError = none) (hex : env.extractError = none)
    (ht : t ≠ 0)
    (hstat : ∀ d ∈ env.hookCalls,
      d.status = some "downloading" ∧ d.total_bytes = some t)
    (hmono : List.Chain'
      (fun a b => a.downloaded_bytes.getD 0 ≤ b.downloaded_bytes.getD 0)
      env.hookCalls) :
    List.Chain' (fun a b => a ≤ b) (emittedPercentages (w.run env).1) := by
  have hhook := hookEmits_percentages t ht env.hookCalls hstat
  have htrace : emittedPercentages (w.run env).1 =
      (env.hookCalls.map (fun d => downloadPct (d.downloaded_bytes.getD 0) t))
        ++ [100] := by
    unfold DownloaderWorker.run
    rw [if_neg hurl, hos, pathlibMkdir_parents_exist_ok, hex]
    cases hf : w.ffmpeg_location <;>
      (unfold emittedPercentages at hhook ⊢;
       simp [List.filterMap_append, hhook])
  rw [htrace, List.chain'_append]
  refine ⟨?_, List.chain'_singleton 100, ?_⟩
  · rw [List.chain'_map]
    exact hmono.imp (fun a b hab => downloadPct_mono t _ _ hab)
  · intro x hx y hy
    simp only [List.head?_cons, Option.mem_def, Option.some.injEq] at hy
    subst hy
    have hx' := List.mem_of_getLast?_eq_some (Option.mem_def.mp hx)
    rcases List.mem_map.mp hx' with ⟨d, _, rfl⟩
    exact downloadPct_le_100 _ _

/-- Witness for `run_percentages_monotone`: two downloading reports of 30 then
70 of 100 bytes give the chain 30, 70, 100. -/
theorem run_percentages_monotone_witness :
    List.Chain' (fun a b => a ≤ b)
      (emittedPercentages ((DownloaderWorker.init "https://x" "downloads" "video" none).run
        ⟨none, true, true,
          [⟨some "downloading", some 100, none, some 30⟩,
           ⟨some "downloading", some 100, none, some 70⟩], none, some "Song"⟩).1) :=
  run_percentages_monotone (DownloaderWorker.init "https://x" "downloads" "video" none)
    ⟨none, true, true,
      [⟨some "downloading", some 100, none, some 30⟩,
       ⟨some "downloading", some 100, none, some 70⟩], none, some "Song"⟩ 100
    (by decide) rfl rfl (by decide) (by decide)
    (List.chain'_pair.mpr (by decide))

/-- The search loop returns exactly the first candidate satisfying the
ffmpeg/ffprobe pair test, as `List.find?` does. -/
theorem ffmpegSearch_fst (env : FfmpegEnv) (l : List String) :
    (ffmpegSearch env l).1 = l.find? (hasFfmpegPair env) := by
  induction l with
  | nil => rfl
  | cons b rest ih =>
    by_cases hb : hasFfmpegPair env b
    · simp [ffmpegSearch, hb, List.find?_cons_of_pos]
    · simp [ffmpegSearch, hb, List.find?_cons_of_neg, ih]

/-- When no candidate passes the pair test, the search reaches the PATH
probe. -/
theorem ffmpegSearch_probe (env : FfmpegEnv) (l : List String)
    (h : l.find? (hasFfmpegPair env) = none) :
    FfmpegStep.probePath ∈ (ffmpegSearch env l).2 := by
  induction l with
  | nil => simp [ffmpegSearch]
  | cons b rest ih =>
    rcases List.find?_eq_none.mp h b (List.mem_cons_self b rest) with hb
    have hrest : rest.find? (hasFfmpegPair env) = none :=
      List.find?_eq_none.mpr fun x hx =>
        List.find?_eq_none.mp h x (List.mem_cons_of_mem b hx)
    simp only [ffmpegSearch, if_neg hb]
    exact List.mem_cons_of_mem _ (ih hrest)

/-- C9: the candidate list is exactly, in order: the application-binary
directory, its `bin`, the bundled-resources directory and its `bin` (when
packaged with `_MEIPASS` set), then the working directory and its `bin`; a
non-packaged run checks only the working directory and its `bin`. The result
is the first candidate containing both `ffmpeg.exe` and `ffprobe.exe`
(`List.find?`); when none matches, the function runs the PATH probe and
returns no explicit override (`none`), whatever the probe's outcome. -/
theorem find_ffmpeg_location_order (env : FfmpegEnv) :
    (∀ m, env.frozen = true → env.meipass = some m →
      ffmpegCandidates env = [env.exeDir, joinPath env.exeDir "bin", m,
        joinPath m "bin", env.cwd, joinPath env.cwd "bin"]) ∧
    (env.frozen = false →
      ffmpegCandidates env = [env.cwd, joinPath env.cwd "bin"]) ∧
    (find_ffmpeg_location env).1 = (ffmpegCandidates env).find? (hasFfmpegPair env) ∧
    ((ffmpegCandidates env).find? (hasFfmpegPair env) = none →
      (find_ffmpeg_location env).1 = none ∧
      FfmpegStep.probePath ∈ (find_ffmpeg_location env).2) := by
  refine ⟨?_, ?_, ffmpegSearch_fst env (ffmpegCandidates env), ?_⟩
  · intro m hf hm
    simp [ffmpegCandidates, hf, hm]
  · intro hf
    simp [ffmpegCandidates, hf]
  · intro hnone
    exact ⟨(ffmpegSearch_fst env (ffmpegCandidates env)).trans hnone,
      ffmpegSearch_probe env (ffmpegCandidates env) hnone⟩

/-- Witness for `find_ffmpeg_location_order` on a concrete packaged-binary
environment with no executables present: the candidate order is as stated and
the PATH probe is reached. -/
theorem find_ffmpeg_location_order_witness :
    ffmpegCandidates ⟨true, "C:/app", some "C:/tmp/mei", "C:/work", [], true⟩ =
      ["C:/app", joinPath "C:/app" "bin", "C:/tmp/mei",
        joinPath "C:/tmp/mei" "bin", "C:/work", joinPath "C:/work" "bin"] ∧
    (find_ffmpeg_location ⟨true, "C:/app", some "C:/tmp/mei", "C:/work", [], true⟩).1 =
      none ∧
    FfmpegStep.probePath ∈
      (find_ffmpeg_location ⟨true, "C:/app", some "C:/tmp/mei", "C:/work", [], true⟩).2 := by
  have h := find_ffmpeg_location_order ⟨true, "C:/app", some "C:/tmp/mei", "C:/work", [], true⟩
  have hnone : (ffmpegCandidates
      ⟨true, "C:/app", some "C:/tmp/mei", "C:/work", [], true⟩).find?
        (hasFfmpegPair ⟨true, "C:/app", some "C:/tmp/mei", "C:/work", [], true⟩) = none := by
    decide
  exact ⟨h.1 "C:/tmp/mei" rfl rfl, (h.2.2.2 hnone).1, (h.2.2.2 hnone).2⟩
